import Mathlib

/-!
Verification of the sealed-bid auction frontend (BidSmart).

The repository consists of React pages backed by a Supabase `auctions` /
`bids` store:

* `src/src/pages/AuctionDetail.tsx` — auction detail page, with
  `isEnded` (line 58), `checkUserBid` (60–79), `fetchWinnerDetails`
  (81–110), `fetchAuctionDetails` (112–162) and `handleBidSubmit`
  (164–217);
* `src/unnamed/part_000` — the home page (`fetchFeaturedAuctions`) and
  the auction listing page (`fetchAuctions`, lines 303–329).

We shallow-embed the data these pages read and write, the Supabase query
combinators they use (`eq` filters, `order ... limit 1`, `single`,
`maybeSingle`, `insert`), and the handlers themselves.  Timestamps are
milliseconds since the epoch, modelled as `Nat`; money amounts are
modelled as `Nat` (the code only compares them).  Row order of the `bids`
table is carried explicitly as the order of a `List`: a query with no
`order` clause, or with a non-total `order` clause, resolves the
remaining freedom by that storage order.
-/

namespace BidSmart

/-- Auction status: draft, active, ended or cancelled
(`AuctionDetail.tsx` line 18). -/
inductive Status where
  | draft
  | active
  | ended
  | cancelled
deriving DecidableEq, Repr

/-- An `auctions` row as selected by the pages: id, start_price,
end_time, status, and the joined product reference (opaque here). -/
structure Auction where
  id : Nat
  product : Nat
  start_price : Nat
  end_time : Nat
  status : Status
deriving DecidableEq, Repr

/-- A `bids` row as the code inserts it (`AuctionDetail.tsx` 195–202):
auction_id, bidder_id, amount, created_at. -/
structure Bid where
  auction_id : Nat
  bidder_id : Nat
  amount : Nat
  created_at : Nat
deriving DecidableEq, Repr

/-- Errors surfaced by the PostgREST single-row combinators. -/
inductive QueryError where
  | noRows
  | multipleRows
deriving DecidableEq, Repr

/-- Combinator `.single()`: exactly one row expected; zero rows is an
error (PGRST116), several rows is an error. -/
def single {α : Type} : List α → Except QueryError α
  | [] => .error .noRows
  | [x] => .ok x
  | _ :: _ :: _ => .error .multipleRows

/-- Combinator `.maybeSingle()`: zero or one row expected; several rows
is an error. -/
def maybeSingle {α : Type} : List α → Except QueryError (Option α)
  | [] => .ok none
  | [x] => .ok (some x)
  | _ :: _ :: _ => .error .multipleRows

/-- Model of `isEnded` (`AuctionDetail.tsx` line 58):
`new Date(auction.end_time) < new Date()` — a strict comparison of the
auction's end time with the current time. -/
def isEnded (end_time now : Nat) : Bool :=
  decide (end_time < now)

/-- The duplicate-bid lookup shared by `checkUserBid` (64–69) and the
pre-check of `handleBidSubmit` (173–178): select from `bids` with
equality filters on `auction_id` and `bidder_id`, then `maybeSingle`. -/
def dupCheckQuery (bids : List Bid) (auctionId bidder : Nat) :
    Except QueryError (Option Bid) :=
  maybeSingle (bids.filter fun b =>
    b.auction_id == auctionId && b.bidder_id == bidder)

/-- Outcome of `handleBidSubmit` as observable from the page state:
which error branch was taken, or success together with the `bids` table
after the insert. -/
inductive BidOutcome where
  | signInRequired
  | conflict (prior : Bid)
  | validation
  | success (newBids : List Bid)
deriving DecidableEq, Repr

/-- Model of `handleBidSubmit` (`AuctionDetail.tsx` 164–217).  In
source order:

1. `if (!user)` → "Please sign in to place a bid";
2. the duplicate pre-check query; its `bidCheckError` is destructured
   but never inspected — on a failed query `existingBid` is `null`;
3. `if (existingBid)` → "You have already placed a bid …" (Conflict);
4. `if (!auction || bidAmount <= auction.start_price)` → "Bid amount
   must be higher than the base price" (Validation);
5. insert `{auction_id, bidder_id, amount, created_at: now}`.

There is no status or end-time check anywhere in the handler.  The
result of the pre-check query is a parameter so that a failing query can
be examined; `handleBidSubmitRun` below ties it to the table. -/
def handleBidSubmit (user : Option Nat)
    (checkResult : Except QueryError (Option Bid))
    (auction : Option Auction) (bidAmount : Nat)
    (bids : List Bid) (auctionId now : Nat) : BidOutcome :=
  match user with
  | none => .signInRequired
  | some uid =>
    let existingBid : Option Bid :=
      match checkResult with
      | .ok d => d
      | .error _ => none
    match existingBid with
    | some prior => .conflict prior
    | none =>
      match auction with
      | none => .validation
      | some a =>
        if bidAmount ≤ a.start_price then .validation
        else .success (bids ++ [⟨auctionId, uid, bidAmount, now⟩])

/-- The handler `handleBidSubmit` with the pre-check query actually run against the
current `bids` table (the non-racing, single-session execution). -/
def handleBidSubmitRun (user : Option Nat) (auction : Option Auction)
    (bidAmount : Nat) (bids : List Bid) (auctionId now : Nat) :
    BidOutcome :=
  handleBidSubmit user
    (dupCheckQuery bids auctionId (user.getD 0))
    auction bidAmount bids auctionId now

/-- The storage effect of one submission whose duplicate pre-check read
the snapshot `snapshot`, while the insert lands on the current table
`bids`.  This separates the read (lines 173–178) from the write (lines
193–202) exactly as the code does: nothing makes them atomic, so under
concurrency the snapshot can be stale. -/
def submitAfterCheck (bids snapshot : List Bid)
    (auctionId uid amount now : Nat) : List Bid :=
  match dupCheckQuery snapshot auctionId uid with
  | .ok (some _) => bids
  | _ => bids ++ [⟨auctionId, uid, amount, now⟩]

/-- Number of bids stored for a given (auction, bidder) pair. -/
def countBidsFor (bids : List Bid) (auctionId bidder : Nat) : Nat :=
  (bids.filter fun b =>
    b.auction_id == auctionId && b.bidder_id == bidder).length

/-- Stable insertion, descending by amount: an element is placed before
the first strictly smaller amount, after all amounts ≥ its own, so rows
of equal amount keep their storage order. -/
def insertAmountDesc (b : Bid) : List Bid → List Bid
  | [] => [b]
  | a :: rest =>
    if b.amount < a.amount then a :: insertAmountDesc b rest
    else b :: a :: rest

/-- Clause `order(amount, descending)`: rows sorted by amount
descending; ties keep the storage order (the clause specifies no
tie-break, so the residual order among equal amounts is whatever row
order the storage layer presents — carried here by the list order). -/
def sortByAmountDesc : List Bid → List Bid
  | [] => []
  | b :: rest => insertAmountDesc b (sortByAmountDesc rest)

/-- The winner record built by `fetchWinnerDetails` (100–105): the
joined bidder identity and the bid amount. -/
structure Winner where
  bidder_id : Nat
  bid_amount : Nat
deriving DecidableEq, Repr

/-- Model of `fetchWinnerDetails` (`AuctionDetail.tsx` 81–110): select
amount and bidder from `bids` where `auction_id` matches, order by
amount descending, `limit(1)`, `single()`.  Zero matching rows makes
`single()` fail.  No secondary order clause exists, so ties in amount
are resolved by storage order, not by `created_at`. -/
def fetchWinnerDetails (bids : List Bid) (auctionId : Nat) :
    Except QueryError Winner :=
  match single ((sortByAmountDesc
      (bids.filter fun b => b.auction_id == auctionId)).take 1) with
  | .ok b => .ok ⟨b.bidder_id, b.amount⟩
  | .error e => .error e

/-- The component state `winner` after `fetchWinnerDetails` ran: on a
query error the catch block logs it and `setWinner` is never called, so
the state stays null. -/
def winnerState (bids : List Bid) (auctionId : Nat) : Option Winner :=
  match fetchWinnerDetails bids auctionId with
  | .ok w => some w
  | .error _ => none

/-- Model of `checkUserBid` (`AuctionDetail.tsx` 60–79): the own bid
row of the actor for this auction, via equality filters on both
`auction_id` and `bidder_id` followed by `maybeSingle`. -/
def checkUserBid (bids : List Bid) (auctionId actor : Nat) :
    Except QueryError (Option Bid) :=
  dupCheckQuery bids auctionId actor

/-- The fields of an auction row exposed by the listing and detail
queries: id, start_price, end_time, status, product.  No bid column and
no aggregate over bids appears in any of these selects. -/
structure AuctionSummary where
  id : Nat
  start_price : Nat
  end_time : Nat
  status : Status
  product : Nat
deriving DecidableEq, Repr

/-- Projection of an `auctions` row to the selected columns. -/
def summarize (a : Auction) : AuctionSummary :=
  ⟨a.id, a.start_price, a.end_time, a.status, a.product⟩

/-- Model of `fetchAuctions` (`part_000` 303–329): the active-auction
listing — select id, start_price, end_time, status, product from
`auctions` where status is active, ordered by end_time ascending.  It
reads only the `auctions` table: no bid column and no aggregate over
bids. -/
def fetchAuctions (auctions : List Auction) : List AuctionSummary :=
  ((auctions.filter fun a => a.status == Status.active).map summarize
    ).mergeSort (fun x y => x.end_time ≤ y.end_time)

/-- Model of `fetchAuctionDetails` (`AuctionDetail.tsx` 112–162): one
auction row with its product join, filtered by id then `single()`.  It
reads only the `auctions` table. -/
def fetchAuctionDetail (auctions : List Auction) (auctionId : Nat) :
    Except QueryError AuctionSummary :=
  match single (auctions.filter fun a => a.id == auctionId) with
  | .ok a => .ok (summarize a)
  | .error e => .error e

/-- The database both pages read. -/
structure DB where
  auctions : List Auction
  bids : List Bid
deriving DecidableEq, Repr

/-- Everything an actor can observe through the pre-close read
operations: the active-auction listing, the auction detail, and the
own-bid lookup.  (`fetchWinnerDetails` is invoked only under `isEnded`,
`AuctionDetail.tsx` line 42, so it is not part of the active view.) -/
def activeView (db : DB) (actor auctionId : Nat) :
    List AuctionSummary × Except QueryError AuctionSummary ×
      Except QueryError (Option Bid) :=
  (fetchAuctions db.auctions,
   fetchAuctionDetail db.auctions auctionId,
   checkUserBid db.bids auctionId actor)

end BidSmart

/-! ## Properties of the amount-descending sort -/

namespace BidSmart

/-- Inserting into the sorted list is a permutation of consing. -/
theorem insertAmountDesc_perm (b : Bid) (l : List Bid) :
    (insertAmountDesc b l).Perm (b :: l) := by
  induction l with
  | nil => simp [insertAmountDesc]
  | cons a t ih =>
    by_cases h : b.amount < a.amount
    · simp only [insertAmountDesc, if_pos h]
      exact ((ih.cons a).trans (List.Perm.swap b a t))
    · simp [insertAmountDesc, if_neg h]

/-- The sort is a permutation of its input. -/
theorem sortByAmountDesc_perm (l : List Bid) :
    (sortByAmountDesc l).Perm l := by
  induction l with
  | nil => simp [sortByAmountDesc]
  | cons b t ih =>
    exact (insertAmountDesc_perm b (sortByAmountDesc t)).trans (ih.cons b)

/-- Inserting preserves the descending-amount pairwise order. -/
theorem insertAmountDesc_pairwise (b : Bid) (l : List Bid)
    (h : l.Pairwise (fun x y => y.amount ≤ x.amount)) :
    (insertAmountDesc b l).Pairwise (fun x y => y.amount ≤ x.amount) := by
  induction l with
  | nil => simp [insertAmountDesc]
  | cons a t ih =>
    rcases List.pairwise_cons.mp h with ⟨ha, ht⟩
    by_cases hba : b.amount < a.amount
    · simp only [insertAmountDesc, if_pos hba]
      refine List.pairwise_cons.mpr ⟨?_, ih ht⟩
      intro x hx
      rcases List.mem_cons.mp
          ((insertAmountDesc_perm b t).mem_iff.mp hx) with hxb | hxt
      · subst hxb
        exact Nat.le_of_lt hba
      · exact ha x hxt
    · simp only [insertAmountDesc, if_neg hba]
      have hab : a.amount ≤ b.amount := Nat.le_of_not_lt hba
      refine List.pairwise_cons.mpr ⟨?_, h⟩
      intro x hx
      rcases List.mem_cons.mp hx with hxa | hxt
      · subst hxa; exact hab
      · exact le_trans (ha x hxt) hab

/-- The sorted list is pairwise descending in amount. -/
theorem sortByAmountDesc_pairwise (l : List Bid) :
    (sortByAmountDesc l).Pairwise (fun x y => y.amount ≤ x.amount) := by
  induction l with
  | nil => simp [sortByAmountDesc]
  | cons b t ih => exact insertAmountDesc_pairwise b _ ih

/-- On a nonempty set of matching rows, the winner query succeeds and
returns the identity and amount of some stored bid for the auction that
dominates every stored bid for the auction in amount. -/
theorem fetchWinnerDetails_ok (bids : List Bid) (auctionId : Nat)
    (hne : bids.filter (fun b => b.auction_id == auctionId) ≠ []) :
    ∃ w b, fetchWinnerDetails bids auctionId = .ok w ∧
      b ∈ bids.filter (fun x => x.auction_id == auctionId) ∧
      w = ⟨b.bidder_id, b.amount⟩ ∧
      ∀ c ∈ bids.filter (fun x => x.auction_id == auctionId),
        c.amount ≤ b.amount := by
  set f := bids.filter (fun x => x.auction_id == auctionId) with hf
  have hperm : (sortByAmountDesc f).Perm f := sortByAmountDesc_perm f
  cases hs : sortByAmountDesc f with
  | nil =>
    exact absurd (List.Perm.eq_nil ((hs ▸ hperm).symm)) hne
  | cons b t =>
    refine ⟨⟨b.bidder_id, b.amount⟩, b, ?_, ?_, rfl, ?_⟩
    · simp [fetchWinnerDetails, ← hf, hs, single]
    · exact hperm.subset (hs ▸ List.mem_cons_self b t)
    · intro c hc
      have hcs : c ∈ sortByAmountDesc f := hperm.symm.subset hc
      rw [hs] at hcs
      rcases List.mem_cons.mp hcs with hcb | hct
      · subst hcb; exact le_refl _
      · have := List.pairwise_cons.mp (hs ▸ sortByAmountDesc_pairwise f)
        exact this.1 c hct

/-- With no matching row the winner query fails with the no-rows error
and the component state stays unset. -/
theorem fetchWinnerDetails_empty (bids : List Bid) (auctionId : Nat)
    (hz : bids.filter (fun b => b.auction_id == auctionId) = []) :
    fetchWinnerDetails bids auctionId = .error .noRows ∧
      winnerState bids auctionId = none := by
  have h1 : fetchWinnerDetails bids auctionId = .error .noRows := by
    simp [fetchWinnerDetails, hz, sortByAmountDesc, single]
  exact ⟨h1, by simp [winnerState, h1]⟩

end BidSmart

/-! ## Claims -/

namespace BidSmart

/-- C1: the claim states that at most one bid ever exists per
(auction, bidder) pair even under concurrent identical submissions,
because the duplicate check and the insertion are a single atomic
compare-and-insert at the storage boundary.  The code instead performs
a separate read (the maybeSingle pre-check, lines 173–178) followed by
a write (the insert, lines 193–202).  First conjunct: two identical
submissions by bidder 7 on auction 1 whose pre-checks both read the
initial empty snapshot — the interleaving check, check, insert, insert
— leave TWO stored bids for (1, 7).  Second conjunct: the same two
submissions run sequentially (the second pre-check sees the first
insert) leave one bid, isolating the stale-snapshot race as the cause. -/
theorem C1_check_then_insert_race_admits_two_bids :
    countBidsFor
        (submitAfterCheck (submitAfterCheck [] [] 1 7 150 10) [] 1 7 150 11)
        1 7 = 2 ∧
      countBidsFor
        (submitAfterCheck (submitAfterCheck [] [] 1 7 150 10)
          (submitAfterCheck [] [] 1 7 150 10) 1 7 150 11)
        1 7 = 1 := by
  decide

/-- C3: the claim states that a submission after end_time has passed
always fails InvalidState even if the stored status is still active.
The handler has no end-time and no status check: on auction 1 with
end_time 100, at now = 200 (so `isEnded` is true and the wall clock is
past the end), with stored status still active, a signed-in bidder with
no prior bid and an amount above the floor gets a successful insert,
not an InvalidState failure. -/
theorem C3_submit_after_end_time_is_admitted :
    isEnded 100 200 = true ∧
      handleBidSubmitRun (some 1) (some ⟨1, 5, 100, 100, .active⟩)
          150 [] 1 200 =
        .success [⟨1, 1, 150, 200⟩] := by
  decide

/-- C9 counterexample: the claim states the clock check is the
comparison end_time ≤ now, so an auction whose end_time equals the
current instant is already ended.  At end_time = now = 5 the inequality
5 ≤ 5 holds, yet `isEnded` returns false: the code compares with a
strict less-than. -/
theorem C9_boundary_instant_not_ended :
    (5 ≤ 5) ∧ isEnded 5 5 = false := by
  decide

/-- C9 amended: the clock check is the pure strict comparison
end_time < now; an auction whose end_time equals the current instant is
not yet ended. -/
theorem C9_isEnded_is_strict_lt (end_time now : Nat) :
    isEnded end_time now = decide (end_time < now) ∧
      isEnded end_time end_time = false := by
  constructor
  · rfl
  · simp [isEnded]

/-- C10: if the duplicate-bid pre-check query fails, its error is
discarded: `handleBidSubmit` behaves exactly as it does when the query
succeeds finding no existing bid, proceeding to the amount check and
the insert. -/
theorem C10_check_error_ignored_as_no_prior_bid (user : Option Nat)
    (e : QueryError) (auction : Option Auction) (bidAmount : Nat)
    (bids : List Bid) (auctionId now : Nat) :
    handleBidSubmit user (.error e) auction bidAmount bids auctionId now =
      handleBidSubmit user (.ok none) auction bidAmount bids auctionId now := by
  cases user with
  | none => rfl
  | some uid => rfl

end BidSmart

namespace BidSmart

/-- C2: while an auction is active, the pre-close read operations — the
active-auction listing, the auction detail, and the own-bid lookup —
reveal nothing about any other bidder's bid: two databases with the same
auctions whose bid tables agree on the rows owned by the actor (but may
differ arbitrarily in other bidders' rows — amounts, counts, presence,
hence also in any maximum or other aggregate) produce identical views
for that actor. -/
theorem C2_active_view_depends_only_on_own_bids
    (db db' : DB) (actor auctionId : Nat)
    (hA : db.auctions = db'.auctions)
    (hB : db.bids.filter (fun b => b.bidder_id == actor) =
        db'.bids.filter (fun b => b.bidder_id == actor)) :
    activeView db actor auctionId = activeView db' actor auctionId := by
  have h3 : db.bids.filter
        (fun b => b.auction_id == auctionId && b.bidder_id == actor) =
      db'.bids.filter
        (fun b => b.auction_id == auctionId && b.bidder_id == actor) := by
    rw [← List.filter_filter, ← List.filter_filter, hB]
  simp [activeView, checkUserBid, dupCheckQuery, hA, h3]

/-- C2 witness: the two bid tables differ in another bidder's amount and
in an extra bid by a third bidder, yet actor 7 sees the same view. -/
theorem C2_active_view_depends_only_on_own_bids_witness :
    ([⟨1, 2, 500, 5⟩] : List Bid).filter (fun b => b.bidder_id == 7) =
        ([⟨1, 9, 1, 1⟩, ⟨1, 2, 700, 5⟩] : List Bid).filter
          (fun b => b.bidder_id == 7) ∧
      activeView ⟨[⟨1, 5, 100, 50, .active⟩], [⟨1, 2, 500, 5⟩]⟩ 7 1 =
        activeView ⟨[⟨1, 5, 100, 50, .active⟩],
          [⟨1, 9, 1, 1⟩, ⟨1, 2, 700, 5⟩]⟩ 7 1 :=
  ⟨rfl, C2_active_view_depends_only_on_own_bids _ _ 7 1 rfl rfl⟩

end BidSmart

namespace BidSmart

/-- Decidable equality of query results. -/
instance {ε α : Type} [DecidableEq ε] [DecidableEq α] :
    DecidableEq (Except ε α) := fun x y =>
  match x, y with
  | .ok a, .ok b =>
    if h : a = b then isTrue (by rw [h]) else isFalse (by simp [h])
  | .error a, .error b =>
    if h : a = b then isTrue (by rw [h]) else isFalse (by simp [h])
  | .ok _, .error _ => isFalse (by simp)
  | .error _, .ok _ => isFalse (by simp)

/-- C4 counterexample: the claim states that among bids sharing the
maximum amount the one with the earliest created_at wins, and that for
scenario C (X:150 at time 1, Y:200 at time 2, Z:200 at time 3) resolve
returns Y.  The winner query orders by amount only, with no secondary
created_at clause, so ties fall back to storage row order.  With the
same three bids stored in the order Z, Y, X — an order the query allows,
since nothing ties row order to created_at — the query returns bidder 3
(Z, created_at 3) although bidder 2 (Y) holds the same maximal amount
200 with the earlier created_at 2. -/
theorem C4_tie_resolved_by_storage_order_not_created_at :
    fetchWinnerDetails [⟨1, 3, 200, 3⟩, ⟨1, 2, 200, 2⟩, ⟨1, 1, 150, 1⟩] 1 =
        .ok ⟨3, 200⟩ ∧
      (⟨1, 2, 200, 2⟩ : Bid) ∈
        [(⟨1, 3, 200, 3⟩ : Bid), ⟨1, 2, 200, 2⟩, ⟨1, 1, 150, 1⟩] ∧
      (2 : Nat) < 3 := by
  decide

/-- C4 amended: on an ended auction with at least one bid, the winner
query returns the identity and amount of a stored bid whose amount is
maximal among the auction's bids (so the winning amount in scenario C
is 200); among bids sharing the maximum the returned row is decided by
the storage layer's row order, not by created_at. -/
theorem C4_resolve_returns_a_maximal_bid (bids : List Bid)
    (auctionId : Nat)
    (hne : bids.filter (fun b => b.auction_id == auctionId) ≠ []) :
    ∃ w b, fetchWinnerDetails bids auctionId = .ok w ∧
      b ∈ bids.filter (fun x => x.auction_id == auctionId) ∧
      w.bidder_id = b.bidder_id ∧ w.bid_amount = b.amount ∧
      ∀ c ∈ bids.filter (fun x => x.auction_id == auctionId),
        c.amount ≤ w.bid_amount := by
  obtain ⟨w, b, h1, h2, h3, h4⟩ := fetchWinnerDetails_ok bids auctionId hne
  subst h3
  exact ⟨_, b, h1, h2, rfl, rfl, h4⟩

/-- C4 witness: scenario C in insertion order. -/
theorem C4_resolve_returns_a_maximal_bid_witness :
    ([⟨1, 1, 150, 1⟩, ⟨1, 2, 200, 2⟩, ⟨1, 3, 200, 3⟩] : List Bid).filter
        (fun b => b.auction_id == 1) ≠ [] ∧
      ∃ w b,
        fetchWinnerDetails [⟨1, 1, 150, 1⟩, ⟨1, 2, 200, 2⟩, ⟨1, 3, 200, 3⟩]
            1 = .ok w ∧
        b ∈ ([⟨1, 1, 150, 1⟩, ⟨1, 2, 200, 2⟩, ⟨1, 3, 200, 3⟩] :
            List Bid).filter (fun x => x.auction_id == 1) ∧
        w.bidder_id = b.bidder_id ∧ w.bid_amount = b.amount ∧
        ∀ c ∈ ([⟨1, 1, 150, 1⟩, ⟨1, 2, 200, 2⟩, ⟨1, 3, 200, 3⟩] :
            List Bid).filter (fun x => x.auction_id == 1),
          c.amount ≤ w.bid_amount :=
  ⟨by decide, C4_resolve_returns_a_maximal_bid _ 1 (by decide)⟩

end BidSmart

namespace BidSmart

/-- C5 counterexample: the claim states the preconditions are checked
in the order auction-exists, status-active, amount-floor, no-prior-bid,
so when the amount floor and the uniqueness precondition both fail the
earlier one (Validation) should determine the reported error.  On an
active auction with start_price 100, bidder 7 who already holds a bid
submits 50 ≤ 100; the code reports the duplicate (Conflict), because it
checks the prior bid before the amount. -/
theorem C5_conflict_reported_before_validation :
    handleBidSubmitRun (some 7) (some ⟨1, 5, 100, 1000, .active⟩) 50
        [⟨1, 7, 150, 10⟩] 1 20 = .conflict ⟨1, 7, 150, 10⟩ ∧
      (50 : Nat) ≤ 100 := by
  decide

/-- C5 amended: the code's checks run in this order, each with its own
distinct outcome: signed-in (else sign-in required), no prior bid for
this auction and bidder (else Conflict with that bid), auction loaded
and amount above start_price (else Validation, with a missing auction
folded into the same Validation branch rather than a NotFound), then
the insert succeeds.  The earliest failing check in THIS order
determines the error.  There is no status or end-time precondition at
all: the outcome is unchanged under any status and end_time (last
conjunct). -/
theorem C5_code_check_order (uid bidAmount auctionId now : Nat)
    (auction : Option Auction) (bids : List Bid) :
    (handleBidSubmitRun none auction bidAmount bids auctionId now =
        .signInRequired) ∧
      (∀ prior, dupCheckQuery bids auctionId uid = .ok (some prior) →
        handleBidSubmitRun (some uid) auction bidAmount bids auctionId now =
          .conflict prior) ∧
      (dupCheckQuery bids auctionId uid = .ok none →
        handleBidSubmitRun (some uid) none bidAmount bids auctionId now =
          .validation) ∧
      (∀ a, dupCheckQuery bids auctionId uid = .ok none →
        bidAmount ≤ a.start_price →
        handleBidSubmitRun (some uid) (some a) bidAmount bids auctionId now =
          .validation) ∧
      (∀ a, dupCheckQuery bids auctionId uid = .ok none →
        a.start_price < bidAmount →
        handleBidSubmitRun (some uid) (some a) bidAmount bids auctionId now =
          .success (bids ++ [⟨auctionId, uid, bidAmount, now⟩])) ∧
      (∀ i p sp e₁ s₁ e₂ s₂,
        handleBidSubmitRun (some uid) (some ⟨i, p, sp, e₁, s₁⟩) bidAmount
            bids auctionId now =
          handleBidSubmitRun (some uid) (some ⟨i, p, sp, e₂, s₂⟩) bidAmount
            bids auctionId now) := by
  refine ⟨rfl, ?_, ?_, ?_, ?_, ?_⟩
  · intro prior h
    simp [handleBidSubmitRun, handleBidSubmit, h]
  · intro h
    simp [handleBidSubmitRun, handleBidSubmit, h]
  · intro a h hle
    simp [handleBidSubmitRun, handleBidSubmit, h, hle]
  · intro a h hlt
    have hn : ¬ bidAmount ≤ a.start_price := Nat.not_le.mpr hlt
    simp [handleBidSubmitRun, handleBidSubmit, h, hn]
  · intro i p sp e₁ s₁ e₂ s₂
    simp only [handleBidSubmitRun, handleBidSubmit]

/-- C5 witness: a prior bid on an already-ended auction is reported as
Conflict. -/
theorem C5_code_check_order_witness :
    dupCheckQuery [⟨2, 9, 120, 4⟩] 2 9 = .ok (some ⟨2, 9, 120, 4⟩) ∧
      handleBidSubmitRun (some 9) (some ⟨2, 6, 100, 50, .ended⟩) 40
          [⟨2, 9, 120, 4⟩] 2 60 = .conflict ⟨2, 9, 120, 4⟩ :=
  ⟨by decide,
    (C5_code_check_order 9 40 2 60 (some ⟨2, 6, 100, 50, .ended⟩)
        [⟨2, 9, 120, 4⟩]).2.1 ⟨2, 9, 120, 4⟩ (by decide)⟩

/-- C6 counterexample: the claim states that an amount at or below the
start price always fails Validation regardless of whether the actor has
already placed a bid.  Bidder 9 already holds a bid on auction 2
(start_price 100) and submits 80 ≤ 100: the code reports Conflict, not
Validation. -/
theorem C6_low_amount_with_prior_bid_reports_conflict :
    (80 : Nat) ≤ 100 ∧
      handleBidSubmitRun (some 9) (some ⟨2, 6, 100, 500, .active⟩) 80
        [⟨2, 9, 120, 4⟩] 2 30 = .conflict ⟨2, 9, 120, 4⟩ := by
  decide

/-- C6 amended: for a signed-in bidder with no prior bid for the
auction, a submission with amount ≤ start_price fails Validation
regardless of the auction's status and end_time; a bidder with a prior
bid is reported as Conflict instead. -/
theorem C6_low_amount_validation_when_no_prior_bid
    (uid i p sp e bidAmount auctionId now : Nat) (st : Status)
    (bids : List Bid)
    (hle : bidAmount ≤ sp)
    (hnone : bids.filter
        (fun b => b.auction_id == auctionId && b.bidder_id == uid) = []) :
    handleBidSubmitRun (some uid) (some ⟨i, p, sp, e, st⟩) bidAmount
        bids auctionId now = .validation := by
  have hq : dupCheckQuery bids auctionId uid = .ok none := by
    simp [dupCheckQuery, hnone, maybeSingle]
  simp [handleBidSubmitRun, handleBidSubmit, hq, hle]

/-- C6 witness: amount equal to the floor, auction already ended by
status and time, another bidder's bid present — still Validation. -/
theorem C6_low_amount_validation_when_no_prior_bid_witness :
    (100 : Nat) ≤ 100 ∧
      ([⟨3, 5, 200, 1⟩] : List Bid).filter
          (fun b => b.auction_id == 3 && b.bidder_id == 4) = [] ∧
      handleBidSubmitRun (some 4) (some ⟨3, 8, 100, 10, .ended⟩) 100
          [⟨3, 5, 200, 1⟩] 3 99 = .validation :=
  ⟨by decide, by decide,
    C6_low_amount_validation_when_no_prior_bid 4 3 8 100 10 100 3 99
      .ended [⟨3, 5, 200, 1⟩] (by decide) (by decide)⟩

end BidSmart

namespace BidSmart

/-- C7 counterexample: the claim states that resolving an ended auction
with zero admitted bids returns an explicit NoWinner outcome as a valid
terminal result, not an error.  With an empty bid table the winner
query built on `single()` fails with the no-rows error: the zero-bid
case is surfaced as a query error, not as a distinguished NoWinner
value. -/
theorem C7_zero_bids_is_query_error :
    fetchWinnerDetails [] 1 = .error .noRows := by
  decide

/-- C7 amended: with zero bids for the auction, the winner query fails
with the no-rows error; the component catches and logs that error, and
the winner state simply remains unset — there is no explicit NoWinner
outcome distinct from an error. -/
theorem C7_zero_bids_error_and_unset_winner (bids : List Bid)
    (auctionId : Nat)
    (hz : bids.filter (fun b => b.auction_id == auctionId) = []) :
    fetchWinnerDetails bids auctionId = .error .noRows ∧
      winnerState bids auctionId = none :=
  fetchWinnerDetails_empty bids auctionId hz

/-- C7 witness: a bid table whose only row belongs to another auction. -/
theorem C7_zero_bids_error_and_unset_winner_witness :
    ([⟨2, 1, 50, 1⟩] : List Bid).filter (fun b => b.auction_id == 1) =
        [] ∧
      fetchWinnerDetails [⟨2, 1, 50, 1⟩] 1 = .error .noRows ∧
      winnerState [⟨2, 1, 50, 1⟩] 1 = none :=
  ⟨by decide,
    (C7_zero_bids_error_and_unset_winner [⟨2, 1, 50, 1⟩] 1 (by decide)).1,
    (C7_zero_bids_error_and_unset_winner [⟨2, 1, 50, 1⟩] 1 (by decide)).2⟩

/-- C8 counterexample: the claim states that for a fixed closed bid set
every invocation of resolve returns the identical result, including the
same winning bidder.  The winner query breaks amount ties by storage
row order, which is not part of the bid set: the same two-bid set
presented in two row orders yields bidder 2 in one order and bidder 3
in the other (the amount, 200, agrees). -/
theorem C8_same_bid_set_different_winner :
    ([(⟨1, 2, 200, 2⟩ : Bid), ⟨1, 3, 200, 3⟩]).Perm
        [⟨1, 3, 200, 3⟩, ⟨1, 2, 200, 2⟩] ∧
      fetchWinnerDetails [⟨1, 2, 200, 2⟩, ⟨1, 3, 200, 3⟩] 1 =
        .ok ⟨2, 200⟩ ∧
      fetchWinnerDetails [⟨1, 3, 200, 3⟩, ⟨1, 2, 200, 2⟩] 1 =
        .ok ⟨3, 200⟩ :=
  ⟨List.Perm.swap (⟨1, 3, 200, 3⟩ : Bid) ⟨1, 2, 200, 2⟩ [], by decide, by decide⟩

/-- C8 amended: for a fixed bid set (any two storage orders of the same
rows) the winning amount returned by repeated resolutions is identical;
the full result, winning bidder included, is identical provided no two
distinct maximal bids for the auction share the maximum amount.  With
ties at the maximum, the bidder depends on the storage row order. -/
theorem C8_amount_deterministic_winner_deterministic_without_ties
    (bids₁ bids₂ : List Bid) (auctionId : Nat)
    (hperm : bids₁.Perm bids₂) :
    ((winnerState bids₁ auctionId).map Winner.bid_amount =
        (winnerState bids₂ auctionId).map Winner.bid_amount) ∧
      ((∀ b₁ ∈ bids₁.filter (fun x => x.auction_id == auctionId),
          ∀ b₂ ∈ bids₁.filter (fun x => x.auction_id == auctionId),
          (∀ c ∈ bids₁.filter (fun x => x.auction_id == auctionId),
            c.amount ≤ b₁.amount) →
          (∀ c ∈ bids₁.filter (fun x => x.auction_id == auctionId),
            c.amount ≤ b₂.amount) →
          b₁ = b₂) →
        winnerState bids₁ auctionId = winnerState bids₂ auctionId) := by
  have hpf : (bids₁.filter (fun x => x.auction_id == auctionId)).Perm
      (bids₂.filter (fun x => x.auction_id == auctionId)) :=
    hperm.filter _
  by_cases h : bids₁.filter (fun x => x.auction_id == auctionId) = []
  · have h₂ : bids₂.filter (fun x => x.auction_id == auctionId) = [] :=
      List.Perm.eq_nil ((h ▸ hpf).symm)
    have e₁ := fetchWinnerDetails_empty bids₁ auctionId h
    have e₂ := fetchWinnerDetails_empty bids₂ auctionId h₂
    rw [e₁.2, e₂.2]
    exact ⟨rfl, fun _ => rfl⟩
  · have hne₂ : bids₂.filter (fun x => x.auction_id == auctionId) ≠ [] :=
      fun hh => h (List.Perm.eq_nil (hh ▸ hpf))
    obtain ⟨w₁, b₁, hw₁, hb₁, he₁, hd₁⟩ :=
      fetchWinnerDetails_ok bids₁ auctionId h
    obtain ⟨w₂, b₂, hw₂, hb₂, he₂, hd₂⟩ :=
      fetchWinnerDetails_ok bids₂ auctionId hne₂
    have hamt : b₁.amount = b₂.amount :=
      Nat.le_antisymm (hd₂ b₁ (hpf.subset hb₁)) (hd₁ b₂ (hpf.symm.subset hb₂))
    have hs₁ : winnerState bids₁ auctionId = some w₁ := by
      simp [winnerState, hw₁]
    have hs₂ : winnerState bids₂ auctionId = some w₂ := by
      simp [winnerState, hw₂]
    constructor
    · rw [hs₁, hs₂, he₁, he₂]
      simp [hamt]
    · intro hu
      have hb₂' : b₂ ∈ bids₁.filter (fun x => x.auction_id == auctionId) :=
        hpf.symm.subset hb₂
      have hd₂' : ∀ c ∈ bids₁.filter (fun x => x.auction_id == auctionId),
          c.amount ≤ b₂.amount :=
        fun c hc => hd₂ c (hpf.subset hc)
      have hb : b₁ = b₂ := hu b₁ hb₁ b₂ hb₂' hd₁ hd₂'
      rw [hs₁, hs₂, he₁, he₂, hb]

/-- C8 witness: a two-bid set without ties, in two storage orders, has
the same resolution. -/
theorem C8_winner_deterministic_witness :
    ([(⟨1, 2, 200, 2⟩ : Bid), ⟨1, 1, 150, 1⟩]).Perm
        [⟨1, 1, 150, 1⟩, ⟨1, 2, 200, 2⟩] ∧
      winnerState [⟨1, 2, 200, 2⟩, ⟨1, 1, 150, 1⟩] 1 =
        winnerState [⟨1, 1, 150, 1⟩, ⟨1, 2, 200, 2⟩] 1 :=
  ⟨List.Perm.swap (⟨1, 1, 150, 1⟩ : Bid) ⟨1, 2, 200, 2⟩ [],
    (C8_amount_deterministic_winner_deterministic_without_ties
        [⟨1, 2, 200, 2⟩, ⟨1, 1, 150, 1⟩] [⟨1, 1, 150, 1⟩, ⟨1, 2, 200, 2⟩] 1
        (List.Perm.swap (⟨1, 1, 150, 1⟩ : Bid) ⟨1, 2, 200, 2⟩ [])).2 (by decide)⟩

end BidSmart
